import Mathlib

/-!
Verification of the b-tagging scale-factor core of `SFrameTools`
(`src/include/MCDataScaleFactors.h`): the `BtagFunction` calibration-curve
hierarchy and the `BTaggingScaleFactors` weight-combination engine.

Machine `float` values are modelled as exact rationals (`ℚ`); momenta,
scale factors, efficiencies and weights are all `ℚ`.  Virtual dispatch in
the C++ hierarchy is modelled by records of evaluation functions
(`BtagFunction`), with one constructor function per concrete class; a
subclass that inherits a method reuses the parent's constructor, so the
inheritance structure of the header is visible in the definitions.

Only the header is available as source.  Methods defined inline in the
header (`BtagScale::value_plus`, `BtagScale::value_minus`,
`BtagEfficiency::value_plus`, `BtagEfficiency::value_minus`, and the
subclass relationships of `CtagScale`, `CtagEfficiency`, `LtagEfficiency`)
are translated from that code.  Methods that the header only declares
(`BtagScale::value`, `BtagScale::error`, `find_bin`, `LtagScale`'s
evaluators, `BTaggingScaleFactors::scale`, `BTaggingScaleFactors::GetWeight`)
are modelled from the specification, as marked in their doc comments.
-/

/-- The systematic-shift enum `E_SystShift` (declared in `include/Utils.h`,
not part of the available source; the spec gives `{Default, Up, Down}`). -/
inductive E_SystShift where
  | eDefault
  | eUp
  | eDown
deriving DecidableEq, Repr

/-- Jet flavor classes distinguished by the engine: heavy-b, heavy-c, light. -/
inductive JetFlavor where
  | heavyB
  | heavyC
  | light
deriving DecidableEq, Repr

/-- A jet record as the engine reads it: momentum, flavor class, and the
binary tag decision. -/
structure Jet where
  pt : ℚ
  flavor : JetFlavor
  tagged : Bool
deriving DecidableEq, Repr

/-- Dispatch record for the abstract base class `BtagFunction`: the three
virtual evaluators `value`, `value_plus`, `value_minus`. -/
structure BtagFunction where
  value : ℚ → ℚ
  value_plus : ℚ → ℚ
  value_minus : ℚ → ℚ

/-- Modelled from the spec: `find_bin` (declared in both `BtagScale` and
`BtagEfficiency`, body not in the header).  The spec: "the bin whose lower
edge is the greatest edge ≤ pt; momentum below the first edge saturates to
bin 0, momentum above the last edge saturates to the last bin".  A linear
scan over the ordered lower edges. -/
def find_bin : List ℚ → ℚ → ℕ
  | [], _ => 0
  | [_], _ => 0
  | _ :: b :: rest, pt => if pt < b then 0 else find_bin (b :: rest) pt + 1

/-- Data owned by a `BtagScale` object: the fitted nominal curve `_scale`
and the binned uncertainty table (`_errors` over lower edges `_bins`).
The nominal fit is kept abstract as a function (its body is a fitted `TF1`
whose constants are not in the header). -/
structure BtagScaleData where
  scaleFit : ℚ → ℚ
  errors : List ℚ
  bins : List ℚ

/-- Modelled from the spec: `BtagScale::value` (declared only).  The fitted
nominal function evaluated at the jet momentum. -/
def BtagScaleData.value (d : BtagScaleData) (jet_pt : ℚ) : ℚ :=
  d.scaleFit jet_pt

/-- Modelled from the spec: `BtagScale::error` (declared only), the binned
absolute-uncertainty lookup: the `_errors` entry of the bin containing
`jet_pt`. -/
def BtagScaleData.error (d : BtagScaleData) (jet_pt : ℚ) : ℚ :=
  d.errors.getD (find_bin d.bins jet_pt) 0

/-- `BtagScale::value_plus`, inline in the header:
`return value(jet_pt) + error(jet_pt);`. -/
def BtagScaleData.value_plus (d : BtagScaleData) (jet_pt : ℚ) : ℚ :=
  d.value jet_pt + d.error jet_pt

/-- `BtagScale::value_minus`, inline in the header:
`const float value_ = value(jet_pt) - error(jet_pt); return value_ > 0 ? value_ : 0;`. -/
def BtagScaleData.value_minus (d : BtagScaleData) (jet_pt : ℚ) : ℚ :=
  let value_ := d.value jet_pt - d.error jet_pt
  if value_ > 0 then value_ else 0

/-- The `BtagScale` object as seen through the `BtagFunction` interface. -/
def mkBtagScale (d : BtagScaleData) : BtagFunction where
  value := d.value
  value_plus := d.value_plus
  value_minus := d.value_minus

/-- `CtagScale` derives from `BtagScale` and overrides only `error()`
(supplying the c-flavor uncertainty table); `value`, `value_plus` and
`value_minus` are inherited, so the object is a `BtagScale` whose data
carries the c-flavor errors. -/
def mkCtagScale (d : BtagScaleData) : BtagFunction :=
  mkBtagScale d

/-- Data owned by an `LtagScale` object: the three independently fitted
curves `_scale`, `_scale_plus`, `_scale_minus`. -/
structure LtagScaleData where
  scaleFit : ℚ → ℚ
  scaleFitPlus : ℚ → ℚ
  scaleFitMinus : ℚ → ℚ

/-- Modelled from the spec: `LtagScale::value`, `value_plus`, `value_minus`
(declared only).  "Three independently fitted curves — central, upper
envelope, lower envelope — each evaluated directly at pt; no additional
floor is applied." -/
def mkLtagScale (d : LtagScaleData) : BtagFunction where
  value := d.scaleFit
  value_plus := d.scaleFitPlus
  value_minus := d.scaleFitMinus

/-- Data owned by a `BtagEfficiency` object: the binned efficiencies
`_values` over lower edges `_bins`. -/
structure BtagEfficiencyData where
  values : List ℚ
  bins : List ℚ

/-- Modelled from the spec: `BtagEfficiency::value` (declared only), the
binned lookup: the `_values` entry of the bin containing `jet_pt`. -/
def BtagEfficiencyData.value (d : BtagEfficiencyData) (jet_pt : ℚ) : ℚ :=
  d.values.getD (find_bin d.bins jet_pt) 0

/-- The `BtagEfficiency` object as seen through the `BtagFunction`
interface; `value_plus` and `value_minus` are inline in the header and
both `return value(jet_pt);`. -/
def mkBtagEfficiency (d : BtagEfficiencyData) : BtagFunction where
  value := d.value
  value_plus := d.value
  value_minus := d.value

/-- `CtagEfficiency` derives from `BtagEfficiency` and overrides nothing
(only the constructor differs, loading c-flavor tables). -/
def mkCtagEfficiency (d : BtagEfficiencyData) : BtagFunction :=
  mkBtagEfficiency d

/-- `LtagEfficiency` derives from `BtagEfficiency` and overrides nothing
(only the constructor differs, loading light-flavor tables). -/
def mkLtagEfficiency (d : BtagEfficiencyData) : BtagFunction :=
  mkBtagEfficiency d

/-- The shifted scale lookup inside the per-jet operation: `value_plus` if
the active shift is Up, `value_minus` if Down, else `value`. -/
def shiftedValue (sf : BtagFunction) (jet_pt : ℚ) : E_SystShift → ℚ
  | .eUp => sf.value_plus jet_pt
  | .eDown => sf.value_minus jet_pt
  | .eDefault => sf.value jet_pt

/-- Modelled from the spec: `BTaggingScaleFactors::scale` (declared only),
the per-jet contribution factor.  Look up the efficiency `e` and the
shifted scale `s`; a tagged jet contributes `s`; an untagged jet
contributes `(1 - s·e) / (1 - e)`, with the factor defined as `1` when
`e ≥ 1` (degenerate-denominator guard). -/
def BTaggingScaleFactors.scaleOp (is_tagged : Bool) (jet_pt : ℚ)
    (sf eff : BtagFunction) (systematic : E_SystShift) : ℚ :=
  let s := shiftedValue sf jet_pt systematic
  if is_tagged then s
  else
    let e := eff.value jet_pt
    if 1 ≤ e then 1 else (1 - s * e) / (1 - e)

/-- The `BTaggingScaleFactors` engine: the two shift settings and the
per-flavor `(scale, efficiency)` pairs. -/
structure BTaggingScaleFactors where
  sys_bjets : E_SystShift
  sys_ljets : E_SystShift
  scale_btag : BtagFunction
  eff_btag : BtagFunction
  scale_ctag : BtagFunction
  eff_ctag : BtagFunction
  scale_light : BtagFunction
  eff_light : BtagFunction

/-- The `(scale, efficiency)` pair the engine uses for a flavor class. -/
def BTaggingScaleFactors.curvesFor (engine : BTaggingScaleFactors) :
    JetFlavor → BtagFunction × BtagFunction
  | .heavyB => (engine.scale_btag, engine.eff_btag)
  | .heavyC => (engine.scale_ctag, engine.eff_ctag)
  | .light => (engine.scale_light, engine.eff_light)

/-- The active shift for a flavor class: `m_sys_bjets` governs heavy-b and
heavy-c jets, `m_sys_ljets` governs light jets. -/
def BTaggingScaleFactors.shiftFor (engine : BTaggingScaleFactors) :
    JetFlavor → E_SystShift
  | .heavyB => engine.sys_bjets
  | .heavyC => engine.sys_bjets
  | .light => engine.sys_ljets

/-- One jet's contribution factor: the scale operation applied with the
curves and shift selected by the jet's flavor class. -/
def BTaggingScaleFactors.jetFactor (engine : BTaggingScaleFactors) (j : Jet) : ℚ :=
  BTaggingScaleFactors.scaleOp j.tagged j.pt
    (engine.curvesFor j.flavor).1 (engine.curvesFor j.flavor).2
    (engine.shiftFor j.flavor)

/-- Modelled from the spec: `BTaggingScaleFactors::GetWeight` (declared
only).  A multiplicative accumulation of the per-jet contribution factors
over the event's jet collection, starting from the neutral weight `1`. -/
def BTaggingScaleFactors.GetWeight (engine : BTaggingScaleFactors)
    (jets : List Jet) : ℚ :=
  jets.foldl (fun w j => w * engine.jetFactor j) 1

/-! ### Concrete curve data used to instantiate hypotheses -/

/-- A concrete continuous-scale datum: constant nominal fit `19/20`,
uncertainty table `[1/10, 3/20]` over lower edges `[30, 60]`. -/
def testScaleData : BtagScaleData where
  scaleFit := fun _ => 19/20
  errors := [1/10, 3/20]
  bins := [30, 60]

/-- A concrete efficiency table: efficiencies `[4/5, 7/10]` over lower
edges `[30, 60]`. -/
def testEffData : BtagEfficiencyData where
  values := [4/5, 7/10]
  bins := [30, 60]

/-- A concrete degenerate efficiency table whose only efficiency is `1`. -/
def testSatEffData : BtagEfficiencyData where
  values := [1]
  bins := [30]

/-- A concrete banded-scale datum with constant central, upper and lower
curves `11/10`, `6/5`, `1`. -/
def testLtagData : LtagScaleData where
  scaleFit := fun _ => 11/10
  scaleFitPlus := fun _ => 6/5
  scaleFitMinus := fun _ => 1

/-- A concrete engine built from the test curves, both shifts at default. -/
def testEngine : BTaggingScaleFactors where
  sys_bjets := E_SystShift.eDefault
  sys_ljets := E_SystShift.eDefault
  scale_btag := mkBtagScale testScaleData
  eff_btag := mkBtagEfficiency testEffData
  scale_ctag := mkCtagScale testScaleData
  eff_ctag := mkCtagEfficiency testEffData
  scale_light := mkLtagScale testLtagData
  eff_light := mkLtagEfficiency testEffData

/-- Concrete jets for instantiating collection-level properties. -/
def jetA : Jet := ⟨50, JetFlavor.heavyB, true⟩

/-- A second concrete jet, light-flavored and untagged. -/
def jetB : Jet := ⟨40, JetFlavor.light, false⟩

/-! ### Shared helper lemmas -/

/-- The header's floor idiom `value_ > 0 ? value_ : 0` is the max with 0. -/
lemma btagScale_value_minus_eq_max (d : BtagScaleData) (jet_pt : ℚ) :
    d.value_minus jet_pt = max (d.value jet_pt - d.error jet_pt) 0 := by
  unfold BtagScaleData.value_minus
  rcases le_or_lt (d.value jet_pt - d.error jet_pt) 0 with h | h
  · rw [if_neg (not_lt.mpr h), max_eq_right h]
  · rw [if_pos h, max_eq_left h.le]

/-- A multiplicative left fold over jet factors is the product of the
mapped factors times the accumulator. -/
lemma foldl_mul_eq_prod (f : Jet → ℚ) (jets : List Jet) (a : ℚ) :
    jets.foldl (fun w j => w * f j) a = a * (jets.map f).prod := by
  induction jets generalizing a with
  | nil => simp
  | cons j tl ih => simp [ih, mul_assoc]

/-- The event weight is the product of the per-jet contribution factors. -/
lemma GetWeight_eq_prod (engine : BTaggingScaleFactors) (jets : List Jet) :
    engine.GetWeight jets = (jets.map engine.jetFactor).prod := by
  unfold BTaggingScaleFactors.GetWeight
  rw [foldl_mul_eq_prod, one_mul]

/-- The weight of a single-jet collection is that jet's factor. -/
lemma GetWeight_singleton (engine : BTaggingScaleFactors) (j : Jet) :
    engine.GetWeight [j] = engine.jetFactor j := by
  simp [GetWeight_eq_prod]

/-! ### Claim theorems -/

/-- C1: for an untagged jet with efficiency `e = efficiencyCurve.value(pt)`
and shifted scale `s`, the scale operation yields `(1 - s·e) / (1 - e)`,
and whenever `e ≥ 1` it yields exactly `1` instead of dividing. -/
theorem C1_untagged_contribution (sf eff : BtagFunction) (jet_pt : ℚ)
    (systematic : E_SystShift) :
    (eff.value jet_pt < 1 →
      BTaggingScaleFactors.scaleOp false jet_pt sf eff systematic =
        (1 - shiftedValue sf jet_pt systematic * eff.value jet_pt) /
          (1 - eff.value jet_pt))
    ∧ (1 ≤ eff.value jet_pt →
      BTaggingScaleFactors.scaleOp false jet_pt sf eff systematic = 1) := by
  constructor
  · intro h
    simp [BTaggingScaleFactors.scaleOp, not_le.mpr h]
  · intro h
    simp [BTaggingScaleFactors.scaleOp, h]

/-- Witness for C1 on concrete curves: at `pt = 50` the untagged factor is
`(1 - (19/20)(4/5)) / (1 - 4/5) = 6/5`, and with a saturated efficiency
table it is exactly `1`. -/
theorem C1_untagged_contribution_witness :
    BTaggingScaleFactors.scaleOp false 50 (mkBtagScale testScaleData)
      (mkBtagEfficiency testEffData) E_SystShift.eDefault = 6/5
    ∧ BTaggingScaleFactors.scaleOp false 50 (mkBtagScale testScaleData)
      (mkBtagEfficiency testSatEffData) E_SystShift.eDefault = 1 := by
  have he : (mkBtagEfficiency testEffData).value 50 = 4/5 := by
    norm_num [mkBtagEfficiency, BtagEfficiencyData.value, testEffData, find_bin]
  have hsat : (mkBtagEfficiency testSatEffData).value 50 = 1 := by
    norm_num [mkBtagEfficiency, BtagEfficiencyData.value, testSatEffData, find_bin]
  have hs : shiftedValue (mkBtagScale testScaleData) 50 E_SystShift.eDefault = 19/20 := by
    norm_num [shiftedValue, mkBtagScale, BtagScaleData.value, testScaleData]
  constructor
  · rw [(C1_untagged_contribution (mkBtagScale testScaleData)
      (mkBtagEfficiency testEffData) 50 E_SystShift.eDefault).1 (by rw [he]; norm_num),
      he, hs]
    norm_num
  · exact (C1_untagged_contribution (mkBtagScale testScaleData)
      (mkBtagEfficiency testSatEffData) 50 E_SystShift.eDefault).2 hsat.ge

/-- C2: the shifted scale is `value_plus` under Up, `value_minus` under
Down, `value` otherwise; a tagged jet contributes exactly the shifted
scale; the heavy-flavor shift governs heavy-b and heavy-c jets and the
light-flavor shift governs only light jets, each flavor using its own
`(scale, efficiency)` pair. -/
theorem C2_shift_selection (engine : BTaggingScaleFactors)
    (sf eff : BtagFunction) (jet_pt : ℚ) (systematic : E_SystShift) :
    (shiftedValue sf jet_pt E_SystShift.eUp = sf.value_plus jet_pt
      ∧ shiftedValue sf jet_pt E_SystShift.eDown = sf.value_minus jet_pt
      ∧ shiftedValue sf jet_pt E_SystShift.eDefault = sf.value jet_pt)
    ∧ BTaggingScaleFactors.scaleOp true jet_pt sf eff systematic =
        shiftedValue sf jet_pt systematic
    ∧ (engine.shiftFor JetFlavor.heavyB = engine.sys_bjets
      ∧ engine.shiftFor JetFlavor.heavyC = engine.sys_bjets
      ∧ engine.shiftFor JetFlavor.light = engine.sys_ljets)
    ∧ (engine.curvesFor JetFlavor.heavyB = (engine.scale_btag, engine.eff_btag)
      ∧ engine.curvesFor JetFlavor.heavyC = (engine.scale_ctag, engine.eff_ctag)
      ∧ engine.curvesFor JetFlavor.light = (engine.scale_light, engine.eff_light)) := by
  refine ⟨⟨rfl, rfl, rfl⟩, ?_, ⟨rfl, rfl, rfl⟩, rfl, rfl, rfl⟩
  simp [BTaggingScaleFactors.scaleOp]

/-- C3: for the continuous scale curve, `value_plus = value + error` and
`value_minus` is `value - error` floored at 0. -/
theorem C3_continuous_scale_envelope (d : BtagScaleData) (jet_pt : ℚ) :
    (mkBtagScale d).value_plus jet_pt =
      (mkBtagScale d).value jet_pt + d.error jet_pt
    ∧ (mkBtagScale d).value_minus jet_pt =
      max ((mkBtagScale d).value jet_pt - d.error jet_pt) 0 :=
  ⟨rfl, btagScale_value_minus_eq_max d jet_pt⟩

/-- C4: efficiency curves carry no systematic variation: `value_plus` and
`value_minus` both return the nominal value. -/
theorem C4_efficiency_no_variation (d : BtagEfficiencyData) (jet_pt : ℚ) :
    (mkBtagEfficiency d).value_plus jet_pt = (mkBtagEfficiency d).value jet_pt
    ∧ (mkBtagEfficiency d).value_minus jet_pt = (mkBtagEfficiency d).value jet_pt :=
  ⟨rfl, rfl⟩

/-- C6: the weight of an empty jet collection is exactly 1. -/
theorem C6_empty_collection_weight (engine : BTaggingScaleFactors) :
    engine.GetWeight [] = 1 :=
  rfl

/-- C7: the event weight is invariant under permutation of the jet
collection. -/
theorem C7_weight_perm_invariant (engine : BTaggingScaleFactors)
    (jets jets2 : List Jet) (h : jets.Perm jets2) :
    engine.GetWeight jets = engine.GetWeight jets2 := by
  rw [GetWeight_eq_prod, GetWeight_eq_prod]
  exact (h.map engine.jetFactor).prod_eq

/-- Witness for C7: swapping two concrete jets leaves the weight of the
test engine unchanged. -/
theorem C7_weight_perm_invariant_witness :
    testEngine.GetWeight [jetA, jetB] = testEngine.GetWeight [jetB, jetA] :=
  C7_weight_perm_invariant testEngine [jetA, jetB] [jetB, jetA]
    (List.Perm.swap jetB jetA [])

/-- C8: the weight of a multi-jet collection is the product over its jets
of the weight of the corresponding single-jet collection. -/
theorem C8_weight_multiplicative (engine : BTaggingScaleFactors)
    (jets : List Jet) :
    engine.GetWeight jets =
      (jets.map (fun j => engine.GetWeight [j])).prod := by
  simp [GetWeight_eq_prod, GetWeight_singleton]

/-- Spec-side reading (for the refinement claim C10) of the c-flavor scale
curve's upper envelope: the same plus equation as the continuous scale
curve, applied to the c-flavor data. -/
def specCtagScale_value_plus (d : BtagScaleData) (jet_pt : ℚ) : ℚ :=
  d.value jet_pt + d.error jet_pt

/-- Spec-side reading (for the refinement claim C10) of the c-flavor scale
curve's lower envelope: the same minus/floor-at-0 equation as the
continuous scale curve, applied to the c-flavor data. -/
def specCtagScale_value_minus (d : BtagScaleData) (jet_pt : ℚ) : ℚ :=
  max (d.value jet_pt - d.error jet_pt) 0

/-- C10: `CtagScale` overrides only `error()`, so its envelope accessors
satisfy exactly the plus/minus/floor-at-0 equations of `BtagScale` with
the c-flavor data; `CtagEfficiency` and `LtagEfficiency` override
nothing, so all three efficiency flavors satisfy
`value_plus = value_minus = value`. -/
theorem C10_subclass_refinement (d : BtagScaleData) (de : BtagEfficiencyData)
    (jet_pt : ℚ) :
    (mkCtagScale d).value_plus jet_pt = specCtagScale_value_plus d jet_pt
    ∧ (mkCtagScale d).value_minus jet_pt = specCtagScale_value_minus d jet_pt
    ∧ mkCtagEfficiency de = mkBtagEfficiency de
    ∧ mkLtagEfficiency de = mkBtagEfficiency de
    ∧ (mkBtagEfficiency de).value_plus jet_pt = (mkBtagEfficiency de).value jet_pt
    ∧ (mkBtagEfficiency de).value_minus jet_pt = (mkBtagEfficiency de).value jet_pt
    ∧ (mkCtagEfficiency de).value_plus jet_pt = (mkCtagEfficiency de).value jet_pt
    ∧ (mkCtagEfficiency de).value_minus jet_pt = (mkCtagEfficiency de).value jet_pt
    ∧ (mkLtagEfficiency de).value_plus jet_pt = (mkLtagEfficiency de).value jet_pt
    ∧ (mkLtagEfficiency de).value_minus jet_pt = (mkLtagEfficiency de).value jet_pt :=
  ⟨rfl, btagScale_value_minus_eq_max d jet_pt, rfl, rfl, rfl, rfl, rfl, rfl, rfl, rfl⟩

/-- C5: for both scale-curve shapes the envelope is ordered,
`value_plus ≥ value ≥ value_minus ≥ 0`.  For the continuous curve this
needs the nominal fit and the uncertainty table to be nonnegative; for the
banded curve it needs the fit-time bounds on the three curves (lower curve
nonnegative and the envelope ordered), both facts about the fitted
constants that live outside the header. -/
theorem C5_scale_envelope_order (db : BtagScaleData) (dl : LtagScaleData)
    (jet_pt : ℚ)
    (hval : 0 ≤ db.value jet_pt) (herr : 0 ≤ db.error jet_pt)
    (hlo : 0 ≤ dl.scaleFitMinus jet_pt)
    (hord1 : dl.scaleFitMinus jet_pt ≤ dl.scaleFit jet_pt)
    (hord2 : dl.scaleFit jet_pt ≤ dl.scaleFitPlus jet_pt) :
    ((mkBtagScale db).value jet_pt ≤ (mkBtagScale db).value_plus jet_pt
      ∧ (mkBtagScale db).value_minus jet_pt ≤ (mkBtagScale db).value jet_pt
      ∧ 0 ≤ (mkBtagScale db).value_minus jet_pt)
    ∧ ((mkLtagScale dl).value jet_pt ≤ (mkLtagScale dl).value_plus jet_pt
      ∧ (mkLtagScale dl).value_minus jet_pt ≤ (mkLtagScale dl).value jet_pt
      ∧ 0 ≤ (mkLtagScale dl).value_minus jet_pt) := by
  refine ⟨⟨?_, ?_, ?_⟩, hord2, hord1, hlo⟩
  · show db.value jet_pt ≤ db.value_plus jet_pt
    unfold BtagScaleData.value_plus
    linarith
  · show db.value_minus jet_pt ≤ db.value jet_pt
    rw [btagScale_value_minus_eq_max]
    exact max_le (by linarith) hval
  · show (0:ℚ) ≤ db.value_minus jet_pt
    rw [btagScale_value_minus_eq_max]
    exact le_max_right _ _

/-- Witness for C5 at the concrete curve data and `pt = 50`. -/
theorem C5_scale_envelope_order_witness :
    ((mkBtagScale testScaleData).value 50 ≤ (mkBtagScale testScaleData).value_plus 50
      ∧ (mkBtagScale testScaleData).value_minus 50 ≤ (mkBtagScale testScaleData).value 50
      ∧ 0 ≤ (mkBtagScale testScaleData).value_minus 50)
    ∧ ((mkLtagScale testLtagData).value 50 ≤ (mkLtagScale testLtagData).value_plus 50
      ∧ (mkLtagScale testLtagData).value_minus 50 ≤ (mkLtagScale testLtagData).value 50
      ∧ 0 ≤ (mkLtagScale testLtagData).value_minus 50) :=
  C5_scale_envelope_order testScaleData testLtagData 50
    (by norm_num [BtagScaleData.value, testScaleData])
    (by norm_num [BtagScaleData.error, testScaleData, find_bin])
    (by norm_num [testLtagData])
    (by norm_num [testLtagData])
    (by norm_num [testLtagData])

/-- The bin index returned by the scan is always a valid index. -/
lemma find_bin_lt_length (b : ℚ) (tl : List ℚ) (pt : ℚ) :
    find_bin (b :: tl) pt < (b :: tl).length := by
  induction tl generalizing b with
  | nil => simp [find_bin]
  | cons b1 rest ih =>
    simp only [find_bin]
    split
    · simp
    · have h := ih b1
      simp only [List.length_cons] at h ⊢
      omega

/-- The bin index is monotone non-decreasing in the momentum. -/
lemma find_bin_mono (b : ℚ) (tl : List ℚ) (p q : ℚ) (hpq : p ≤ q) :
    find_bin (b :: tl) p ≤ find_bin (b :: tl) q := by
  induction tl generalizing b with
  | nil => simp [find_bin]
  | cons b1 rest ih =>
    simp only [find_bin]
    split_ifs with h1 h2 h2
    · exact Nat.le_refl 0
    · exact Nat.zero_le _
    · exact absurd (lt_of_le_of_lt hpq h2) h1
    · exact Nat.succ_le_succ (ih b1)

/-- In a sorted table the head edge bounds every entry from below. -/
lemma sorted_head_le_getD (b : ℚ) (tl : List ℚ)
    (hs : (b :: tl).Sorted (fun x y => x < y)) (j : ℕ)
    (hj : j < (b :: tl).length) : b ≤ (b :: tl).getD j 0 := by
  cases j with
  | zero => simp
  | succ j' =>
    rw [List.getD_cons_succ]
    have hj' : j' < tl.length := by
      simpa [Nat.succ_lt_succ_iff] using hj
    rw [List.getD_eq_getElem tl 0 hj']
    exact le_of_lt ((List.sorted_cons.mp hs).1 _ (List.getElem_mem hj'))

/-- When the momentum is at or above the head edge, the selected bin's
lower edge is at most the momentum. -/
lemma find_bin_getD_le (b : ℚ) (tl : List ℚ) (pt : ℚ)
    (hs : (b :: tl).Sorted (fun x y => x < y)) (hb : b ≤ pt) :
    (b :: tl).getD (find_bin (b :: tl) pt) 0 ≤ pt := by
  induction tl generalizing b with
  | nil => simpa [find_bin]
  | cons b1 rest ih =>
    simp only [find_bin]
    split_ifs with h
    · simpa using hb
    · rw [List.getD_cons_succ]
      exact ih b1 hs.of_cons (not_lt.mp h)

/-- Every bin whose lower edge is at most the momentum lies at or below
the selected bin: the scan picks the greatest edge ≤ pt. -/
lemma find_bin_maximal (b : ℚ) (tl : List ℚ) (pt : ℚ)
    (hs : (b :: tl).Sorted (fun x y => x < y)) (i : ℕ)
    (hi : i < (b :: tl).length) (hle : (b :: tl).getD i 0 ≤ pt) :
    i ≤ find_bin (b :: tl) pt := by
  induction tl generalizing b i with
  | nil =>
    simp only [List.length_cons, List.length_nil] at hi
    omega
  | cons b1 rest ih =>
    simp only [find_bin]
    split_ifs with h
    · cases i with
      | zero => exact Nat.le_refl 0
      | succ j =>
        rw [List.getD_cons_succ] at hle
        have hj : j < (b1 :: rest).length := by
          simpa [Nat.succ_lt_succ_iff] using hi
        have hb1 : b1 ≤ (b1 :: rest).getD j 0 :=
          sorted_head_le_getD b1 rest hs.of_cons j hj
        exact absurd (lt_of_le_of_lt (hb1.trans hle) h) (lt_irrefl b1)
    · cases i with
      | zero => exact Nat.zero_le _
      | succ j =>
        rw [List.getD_cons_succ] at hle
        have hj : j < (b1 :: rest).length := by
          simpa [Nat.succ_lt_succ_iff] using hi
        exact Nat.succ_le_succ (ih b1 hs.of_cons j hj hle)

/-- C9: the scan over a sorted nonempty bin table selects the bin whose
lower edge is the greatest edge ≤ pt, returns bin 0 below the first edge,
saturates to the last bin above the last edge, never leaves the index
range, and is monotone non-decreasing in pt. -/
theorem C9_find_bin_correct (b : ℚ) (tl : List ℚ) (p q : ℚ)
    (hs : (b :: tl).Sorted (fun x y => x < y)) (hpq : p ≤ q) :
    (p < b → find_bin (b :: tl) p = 0)
    ∧ (b ≤ p → (b :: tl).getD (find_bin (b :: tl) p) 0 ≤ p)
    ∧ (∀ i, i < (b :: tl).length → (b :: tl).getD i 0 ≤ p →
        i ≤ find_bin (b :: tl) p)
    ∧ find_bin (b :: tl) p < (b :: tl).length
    ∧ ((b :: tl).getLast (List.cons_ne_nil b tl) ≤ p →
        find_bin (b :: tl) p = (b :: tl).length - 1)
    ∧ find_bin (b :: tl) p ≤ find_bin (b :: tl) q := by
  refine ⟨?_, find_bin_getD_le b tl p hs,
    fun i hi hle => find_bin_maximal b tl p hs i hi hle,
    find_bin_lt_length b tl p, ?_, find_bin_mono b tl p q hpq⟩
  · intro hp
    cases tl with
    | nil => rfl
    | cons b1 rest =>
      have hbb1 : b < b1 := (List.sorted_cons.mp hs).1 b1 (List.mem_cons_self b1 rest)
      simp [find_bin, if_pos (lt_trans hp hbb1)]
  · intro hlast
    have hlen : (b :: tl).length - 1 < (b :: tl).length := by
      simp only [List.length_cons]
      omega
    have hgd : (b :: tl).getD ((b :: tl).length - 1) 0 ≤ p := by
      rw [List.getD_eq_getElem _ 0 hlen]
      rw [← List.getLast_eq_getElem]
      exact hlast
    have hmax := find_bin_maximal b tl p hs _ hlen hgd
    have hlt := find_bin_lt_length b tl p
    omega

/-- Witness for C9 on the concrete sorted table `[30, 60, 90]`: the bin of
`pt = 45` has its lower edge below 45, the index is in range, lookup is
monotone towards `pt = 100`, and 100 (above the last edge) lands in the
last bin. -/
theorem C9_find_bin_correct_witness :
    ([30, 60, 90] : List ℚ).getD (find_bin [30, 60, 90] 45) 0 ≤ 45
    ∧ find_bin ([30, 60, 90] : List ℚ) 45 < 3
    ∧ find_bin ([30, 60, 90] : List ℚ) 45 ≤ find_bin [30, 60, 90] 100
    ∧ find_bin ([30, 60, 90] : List ℚ) 100 = 2 := by
  have hs : ([30, 60, 90] : List ℚ).Sorted (fun x y => x < y) := by
    simp only [List.sorted_cons, List.mem_cons, List.mem_singleton,
      List.not_mem_nil, List.sorted_nil]
    norm_num
  have h := C9_find_bin_correct 30 [60, 90] 45 100 hs (by norm_num)
  have h2 := C9_find_bin_correct 30 [60, 90] 100 100 hs le_rfl
  refine ⟨h.2.1 (by norm_num), by simpa using h.2.2.2.1, h.2.2.2.2.2, ?_⟩
  have hlast := h2.2.2.2.2.1 (by norm_num [List.getLast])
  simpa using hlast
